import Mathlib

/-!
Shallow embedding of src/src/darts.ts.

The file models the two exported functions of the darts exercise:

* calcPoints, which splits its input string on the character class of
  whitespace and hyphen, coerces every token with the JavaScript Number
  conversion, walks the resulting values two at a time as
  (multiplier, sector) pairs, skips out-of-range pairs and accumulates
  multiplier * sector;
* possibleCheckout, which in the source logs its argument and then
  unconditionally throws Error with message "not implemented yet".

JavaScript numbers are modelled by the type JSNum below: either NaN or an
exact integer.  All values arising from the darts inputs are integers well
below 2 to the 53, where double arithmetic is exact, so Int is a faithful
carrier; every comparison involving NaN is false and NaN is absorbing for
the arithmetic, exactly as in JavaScript.
-/

/-- A JavaScript number as it occurs in darts.ts: NaN or an exact integer. -/
inductive JSNum where
  | nan : JSNum
  | int : Int → JSNum
  deriving DecidableEq

/-- The JavaScript strict less-than: false whenever either side is NaN. -/
def JSNum.lt : JSNum → JSNum → Bool
  | JSNum.int a, JSNum.int b => decide (a < b)
  | _, _ => false

/-- The JavaScript strict greater-than: false whenever either side is NaN. -/
def JSNum.gt : JSNum → JSNum → Bool
  | JSNum.int a, JSNum.int b => decide (b < a)
  | _, _ => false

/-- JavaScript multiplication on the modelled values: NaN is absorbing. -/
def JSNum.mul : JSNum → JSNum → JSNum
  | JSNum.int a, JSNum.int b => JSNum.int (a * b)
  | _, _ => JSNum.nan

/-- JavaScript addition on the modelled values: NaN is absorbing. -/
def JSNum.add : JSNum → JSNum → JSNum
  | JSNum.int a, JSNum.int b => JSNum.int (a + b)
  | _, _ => JSNum.nan

/-- The JavaScript whitespace class used both by the regular expression
character class in darts.ts and by the trimming step of the Number
conversion. -/
def jsWhitespace (c : Char) : Bool :=
  c = ' ' || c = '\t' || c = '\n' || c = '\r' || c = '\x0b' || c = '\x0c' ||
  c.toNat = 0xA0 || c.toNat = 0x1680 ||
  (0x2000 <= c.toNat && c.toNat <= 0x200A) ||
  c.toNat = 0x2028 || c.toNat = 0x2029 || c.toNat = 0x202F ||
  c.toNat = 0x205F || c.toNat = 0x3000 || c.toNat = 0xFEFF

/-- The separator class of the split in darts.ts: a whitespace character or
a hyphen. -/
def jsSep (c : Char) : Bool :=
  jsWhitespace c || c = '-'

/-- JavaScript String.prototype.split applied to a single-character class:
the string is cut at every separator character and empty pieces are kept,
including a leading, trailing or lone empty piece. -/
def splitOn (p : Char → Bool) : List Char → List (List Char)
  | [] => [[]]
  | c :: cs =>
    if p c then
      [] :: splitOn p cs
    else
      match splitOn p cs with
      | [] => [[c]]
      | t :: ts => (c :: t) :: ts

/-- Removal of leading and trailing JavaScript whitespace, as the Number
conversion performs before parsing. -/
def jsTrim (cs : List Char) : List Char :=
  ((cs.dropWhile jsWhitespace).reverse.dropWhile jsWhitespace).reverse

/-- The value of a string of decimal digits. -/
def decNat (cs : List Char) : Nat :=
  cs.foldl (fun a c => 10 * a + (c.toNat - 48)) 0

/-- The JavaScript Number conversion of an already trimmed string, on the
integer fragment that the darts inputs exercise: the empty string converts
to 0, an optional single sign followed by one or more decimal digits
converts to the signed decimal value, and every other token shape is
modelled as NaN (none). -/
def jsNumberTrimmed (t : List Char) : Option Int :=
  if t.isEmpty then some 0
  else if t.head? = some '-' then
    if !t.tail.isEmpty && t.tail.all Char.isDigit then
      some (-(decNat t.tail : Int))
    else none
  else if t.head? = some '+' then
    if !t.tail.isEmpty && t.tail.all Char.isDigit then
      some ((decNat t.tail : Int))
    else none
  else if t.all Char.isDigit then
    some ((decNat t : Int))
  else none

/-- The JavaScript Number conversion of a string: trim, then parse. -/
def jsNumber (cs : List Char) : Option Int :=
  jsNumberTrimmed (jsTrim cs)

/-- The value list of darts.ts line 2: the input split on whitespace or
hyphen, each token coerced with Number. -/
def tokenValues (hits : String) : List JSNum :=
  (splitOn jsSep hits.toList).map (fun t => (jsNumber t).elim JSNum.nan JSNum.int)

/-- The loop of calcPoints: values are consumed two at a time as
(multiplier, sector); a pair is skipped when multiplier < 1 or
multiplier > 3, or when sector < 0 or sector > 25; otherwise
multiplier * sector is added to the accumulator.  A trailing lone value is
left unconsumed, matching the loop bound i < length - 1. -/
def calcPointsAux : List JSNum → JSNum → JSNum
  | multiplier :: sector :: rest, points =>
    if multiplier.lt (JSNum.int 1) || multiplier.gt (JSNum.int 3) then
      calcPointsAux rest points
    else if sector.lt (JSNum.int 0) || sector.gt (JSNum.int 25) then
      calcPointsAux rest points
    else
      calcPointsAux rest (points.add (multiplier.mul sector))
  | _, points => points

/-- calcPoints from darts.ts. -/
def calcPoints (hits : String) : JSNum :=
  calcPointsAux (tokenValues hits) (JSNum.int 0)

/-- possibleCheckout from darts.ts: the body logs its argument (a side
effect dropped by the embedding) and then unconditionally throws, modelled
as an error result carrying the message of the thrown Error. -/
def possibleCheckout (x : Int) : Except String String :=
  Except.error "not implemented yet"

/-- The reference pair sum: multiplier times sector over the in-range
pairs of an integer value list, zero contribution for an out-of-range
pair, a trailing lone value ignored. -/
def pairSum : List Int → Int
  | m :: s :: rest => (if 1 ≤ m ∧ m ≤ 3 ∧ 0 ≤ s ∧ s ≤ 25 then m * s else 0) + pairSum rest
  | _ => 0

/-- Variant of the calcPoints loop with the negative-sector test removed:
only sector > 25 is checked on the sector. -/
def calcPointsNoNegAux : List JSNum → JSNum → JSNum
  | multiplier :: sector :: rest, points =>
    if multiplier.lt (JSNum.int 1) || multiplier.gt (JSNum.int 3) then
      calcPointsNoNegAux rest points
    else if sector.gt (JSNum.int 25) then
      calcPointsNoNegAux rest points
    else
      calcPointsNoNegAux rest (points.add (multiplier.mul sector))
  | _, points => points

/-- calcPoints with the negative-sector guard removed. -/
def calcPointsNoNegGuard (hits : String) : JSNum :=
  calcPointsNoNegAux (tokenValues hits) (JSNum.int 0)

/-- A modelled value that is not a negative integer: NaN or a non-negative
integer. -/
def JSNum.nonnegOrNaN : JSNum → Prop
  | JSNum.nan => True
  | JSNum.int n => 0 ≤ n

/-- Claim C4: the three concrete scores of the reference inputs, computed
by the code: 85, 105 and 65. -/
theorem calcPoints_reference_inputs :
    calcPoints "3 20 1 17 2 4" = JSNum.int 85 ∧
    calcPoints "2 15 1 18 3 19" = JSNum.int 105 ∧
    calcPoints "3 20 1 5" = JSNum.int 65 :=
  ⟨rfl, rfl, rfl⟩

/-- Claim C9: an input with a non-numeric token yields NaN rather than an
error: the NaN multiplier passes both range guards because every
comparison with NaN is false, and the NaN product propagates through the
sum. -/
theorem calcPoints_nan_propagates :
    calcPoints "x 20" = JSNum.nan ∧
    JSNum.lt JSNum.nan (JSNum.int 1) = false ∧
    JSNum.gt JSNum.nan (JSNum.int 3) = false ∧
    JSNum.mul JSNum.nan (JSNum.int 20) = JSNum.nan ∧
    JSNum.add (JSNum.int 0) JSNum.nan = JSNum.nan :=
  ⟨rfl, rfl, rfl, rfl, rfl⟩

/-- Claim C1: the code never returns a checkout string; at remaining = 50,
where the claim requires the return value "Double 25", possibleCheckout
throws Error with message "not implemented yet". -/
theorem possibleCheckout_throws_at_50 :
    possibleCheckout 50 = Except.error "not implemented yet" :=
  rfl

/-- Claim C2: the code has an error path for every input; at input 0
possibleCheckout throws Error with message "not implemented yet" instead
of returning a string. -/
theorem possibleCheckout_throws_at_0 :
    possibleCheckout 0 = Except.error "not implemented yet" :=
  rfl

/-- Claim C5: at 477, where the test suite of the repository expects the
return value "Double 12", possibleCheckout throws Error with message
"not implemented yet"; the same happens at 451, 480 and 441. -/
theorem possibleCheckout_throws_at_477 :
    possibleCheckout 477 = Except.error "not implemented yet" ∧
    possibleCheckout 451 = Except.error "not implemented yet" ∧
    possibleCheckout 480 = Except.error "not implemented yet" ∧
    possibleCheckout 441 = Except.error "not implemented yet" :=
  ⟨rfl, rfl, rfl, rfl⟩

/-- The calcPoints loop on an all-integer value list computes the starting
accumulator plus the reference pair sum. -/
theorem calcPointsAux_int : ∀ (vals : List Int) (acc : Int),
    calcPointsAux (vals.map JSNum.int) (JSNum.int acc) = JSNum.int (acc + pairSum vals)
  | [], acc => by simp [calcPointsAux, pairSum]
  | [m], acc => by simp [calcPointsAux, pairSum]
  | m :: s :: rest, acc => by
    simp only [List.map_cons, calcPointsAux, pairSum, JSNum.lt, JSNum.gt, JSNum.mul, JSNum.add]
    by_cases h1 : m < 1 ∨ 3 < m
    · rw [if_pos (by simpa using h1)]
      rw [calcPointsAux_int rest acc]
      have hno : ¬ (1 ≤ m ∧ m ≤ 3 ∧ 0 ≤ s ∧ s ≤ 25) := by omega
      rw [if_neg hno]
      simp
    · by_cases h2 : s < 0 ∨ 25 < s
      · rw [if_neg (by simpa using h1), if_pos (by simpa using h2)]
        rw [calcPointsAux_int rest acc]
        have hno : ¬ (1 ≤ m ∧ m ≤ 3 ∧ 0 ≤ s ∧ s ≤ 25) := by omega
        rw [if_neg hno]
        simp
      · rw [if_neg (by simpa using h1), if_neg (by simpa using h2)]
        rw [calcPointsAux_int rest (acc + m * s)]
        have hyes : 1 ≤ m ∧ m ≤ 3 ∧ 0 ≤ s ∧ s ≤ 25 := by omega
        rw [if_pos hyes]
        congr 1
        ring

/-- The reference pair sum is never negative. -/
theorem pairSum_nonneg : ∀ (vals : List Int), 0 ≤ pairSum vals
  | [] => by simp [pairSum]
  | [_] => by simp [pairSum]
  | m :: s :: rest => by
    have hr := pairSum_nonneg rest
    simp only [pairSum]
    by_cases h : 1 ≤ m ∧ m ≤ 3 ∧ 0 ≤ s ∧ s ≤ 25
    · rw [if_pos h]
      have hms : 0 ≤ m * s := mul_nonneg (by omega) (by omega)
      omega
    · rw [if_neg h]
      omega

/-- Claim C3: on an input whose tokens all coerce to integers, calcPoints
returns the sum of multiplier times sector over exactly the pairs with
multiplier between 1 and 3 and sector between 0 and 25, the out-of-range
pairs contributing zero. -/
theorem calcPoints_sum_of_pairs (hits : String) (vals : List Int)
    (h : tokenValues hits = vals.map JSNum.int) :
    calcPoints hits = JSNum.int (pairSum vals) := by
  unfold calcPoints
  rw [h]
  simpa using calcPointsAux_int vals 0

/-- The sum theorem applied to the first reference input. -/
theorem calcPoints_sum_of_pairs_witness :
    calcPoints "3 20 1 17 2 4" = JSNum.int (pairSum [3, 20, 1, 17, 2, 4]) :=
  calcPoints_sum_of_pairs "3 20 1 17 2 4" [3, 20, 1, 17, 2, 4] rfl

/-- Claim C8, counterexample: on the input "abc 7" the result of
calcPoints is not a non-negative integer, because it is NaN. -/
theorem calcPoints_not_always_nonneg_int :
    ¬ ∃ n : Int, 0 ≤ n ∧ calcPoints "abc 7" = JSNum.int n := by
  rintro ⟨n, -, hn⟩
  rw [show calcPoints "abc 7" = JSNum.nan from rfl] at hn
  exact JSNum.noConfusion hn

/-- Claim C8, amended: on an input whose tokens all coerce to integers,
the value returned by calcPoints is a non-negative integer. -/
theorem calcPoints_nonneg (hits : String) (vals : List Int)
    (h : tokenValues hits = vals.map JSNum.int) :
    ∃ n : Int, 0 ≤ n ∧ calcPoints hits = JSNum.int n := by
  refine ⟨pairSum vals, pairSum_nonneg vals, ?_⟩
  unfold calcPoints
  rw [h]
  simpa using calcPointsAux_int vals 0

/-- The non-negativity theorem applied to the third reference input. -/
theorem calcPoints_nonneg_witness :
    ∃ n : Int, 0 ≤ n ∧ calcPoints "3 20 1 5" = JSNum.int n :=
  calcPoints_nonneg "3 20 1 5" [3, 20, 1, 5] rfl

/-- Claim C6: at any position of the loop, a pair with multiplier 0 or 4,
or with sector -1 or 26, is skipped with zero contribution and the
computation continues, while a pair with multiplier 1 or 3 and sector 0 or
25 is counted with its full product. -/
theorem calcPoints_edge_pairs (m s : Int) (rest : List JSNum) (points : JSNum) :
    ((m = 0 ∨ m = 4 ∨ s = -1 ∨ s = 26) →
      calcPointsAux (JSNum.int m :: JSNum.int s :: rest) points = calcPointsAux rest points) ∧
    ((m = 1 ∨ m = 3) → (s = 0 ∨ s = 25) →
      calcPointsAux (JSNum.int m :: JSNum.int s :: rest) points
        = calcPointsAux rest (points.add (JSNum.int (m * s)))) := by
  constructor
  · intro h
    simp only [calcPointsAux, JSNum.lt, JSNum.gt]
    rcases h with rfl | rfl | rfl | rfl
    · norm_num
    · norm_num
    · split_ifs <;> norm_num at *
    · split_ifs <;> norm_num at *
  · intro hm hs
    have hmul : JSNum.mul (JSNum.int m) (JSNum.int s) = JSNum.int (m * s) := rfl
    simp only [calcPointsAux, JSNum.lt, JSNum.gt, hmul]
    rcases hm with rfl | rfl <;> rcases hs with rfl | rfl <;> norm_num

/-- The edge-pair theorem applied to the pair (0, 5), which is skipped,
and the pair (3, 25), which is counted. -/
theorem calcPoints_edge_pairs_witness :
    calcPointsAux (JSNum.int 0 :: JSNum.int 5 :: []) (JSNum.int 0) = calcPointsAux [] (JSNum.int 0) ∧
    calcPointsAux (JSNum.int 3 :: JSNum.int 25 :: []) (JSNum.int 0)
      = calcPointsAux [] ((JSNum.int 0).add (JSNum.int (3 * 25))) :=
  ⟨(calcPoints_edge_pairs 0 5 [] (JSNum.int 0)).1 (Or.inl rfl),
   (calcPoints_edge_pairs 3 25 [] (JSNum.int 0)).2 (Or.inr rfl) (Or.inr rfl)⟩

/-- The calcPoints loop ignores the last value of an odd-length list. -/
theorem calcPointsAux_dropLast : ∀ (l : List JSNum) (acc : JSNum),
    l.length % 2 = 1 → calcPointsAux l acc = calcPointsAux l.dropLast acc
  | [], _, h => by simp at h
  | [_], _, _ => rfl
  | m :: s :: rest, acc, h => by
    have h2 : rest.length % 2 = 1 := by
      simp only [List.length_cons] at h
      omega
    obtain ⟨r, rest2, rfl⟩ : ∃ r rest2, rest = r :: rest2 := by
      cases rest with
      | nil => simp at h2
      | cons r rest2 => exact ⟨r, rest2, rfl⟩
    have hd : (m :: s :: r :: rest2).dropLast = m :: s :: (r :: rest2).dropLast := rfl
    rw [hd]
    simp only [calcPointsAux]
    split_ifs <;> exact calcPointsAux_dropLast (r :: rest2) _ h2

/-- Claim C7: when the token sequence of an input has odd length, the
trailing unpaired token is ignored: the score equals the score of an
input whose token values are the same sequence with the final token
removed. -/
theorem calcPoints_ignores_trailing (hits hits2 : String)
    (hodd : (tokenValues hits).length % 2 = 1)
    (htl : tokenValues hits2 = (tokenValues hits).dropLast) :
    calcPoints hits = calcPoints hits2 := by
  unfold calcPoints
  rw [htl]
  exact calcPointsAux_dropLast (tokenValues hits) (JSNum.int 0) hodd

/-- The trailing-token theorem applied to "3 20 1" and "3 20". -/
theorem calcPoints_ignores_trailing_witness :
    calcPoints "3 20 1" = calcPoints "3 20" :=
  calcPoints_ignores_trailing "3 20 1" "3 20" rfl rfl

/-- Every piece produced by the split consists of non-separator
characters only. -/
theorem splitOn_pieces (p : Char → Bool) : ∀ (l : List Char),
    ∀ t ∈ splitOn p l, ∀ c ∈ t, p c = false := by
  intro l
  induction l with
  | nil =>
    intro t ht c hc
    simp [splitOn] at ht
    subst ht
    simp at hc
  | cons a l ih =>
    intro t ht c hc
    by_cases hp : p a
    · rw [show splitOn p (a :: l) = [] :: splitOn p l from by simp [splitOn, hp]] at ht
      rcases List.mem_cons.1 ht with rfl | ht
      · simp at hc
      · exact ih t ht c hc
    · have hsp : splitOn p (a :: l) =
          match splitOn p l with
          | [] => [[a]]
          | t0 :: ts => (a :: t0) :: ts := by
        simp [splitOn, hp]
      cases hl : splitOn p l with
      | nil =>
        rw [hsp, hl] at ht
        simp at ht
        subst ht
        rcases List.mem_singleton.1 hc with rfl
        simpa using hp
      | cons t0 ts =>
        rw [hsp, hl] at ht
        rcases List.mem_cons.1 ht with rfl | ht
        · rcases List.mem_cons.1 hc with rfl | hc
          · simpa using hp
          · exact ih t0 (by rw [hl]; exact List.mem_cons_self t0 ts) c hc
        · exact ih t (by rw [hl]; exact List.mem_cons_of_mem t0 ht) c hc

/-- A character of the trimmed string is a character of the string. -/
theorem mem_of_mem_jsTrim {c : Char} {cs : List Char} (h : c ∈ jsTrim cs) : c ∈ cs := by
  unfold jsTrim at h
  rw [List.mem_reverse] at h
  have h1 := (List.dropWhile_sublist jsWhitespace).subset h
  rw [List.mem_reverse] at h1
  exact (List.dropWhile_sublist jsWhitespace).subset h1

/-- On a trimmed string without a minus sign, the modelled Number
conversion never produces a negative integer. -/
theorem jsNumberTrimmed_nonneg (t : List Char) (hminus : ('-' : Char) ∉ t) :
    ∀ n : Int, jsNumberTrimmed t = some n → 0 ≤ n := by
  intro n hn
  unfold jsNumberTrimmed at hn
  split_ifs at hn with h1 h2 h3 h4 h5 h6
  all_goals first
    | exact Option.noConfusion hn
    | exact absurd (List.mem_of_mem_head? (Option.mem_def.mpr h2)) hminus
    | (injection hn with hn
       omega)

/-- On a string without a minus sign, the modelled Number conversion never
produces a negative integer. -/
theorem jsNumber_nonneg (cs : List Char) (hminus : ('-' : Char) ∉ cs) :
    ∀ n : Int, jsNumber cs = some n → 0 ≤ n :=
  jsNumberTrimmed_nonneg (jsTrim cs) (fun h => hminus (mem_of_mem_jsTrim h))

/-- On a value list containing no negative integer, the calcPoints loop
coincides with the variant that lacks the negative-sector test. -/
theorem calcPointsAux_eq_noNeg : ∀ (l : List JSNum) (acc : JSNum),
    (∀ v ∈ l, JSNum.nonnegOrNaN v) → calcPointsAux l acc = calcPointsNoNegAux l acc
  | [], _, _ => rfl
  | [_], _, _ => rfl
  | m :: s :: rest, acc, h => by
    have hs : JSNum.nonnegOrNaN s := h s (by simp)
    have hrest : ∀ v ∈ rest, JSNum.nonnegOrNaN v := fun v hv => h v (by simp [hv])
    have hslt : s.lt (JSNum.int 0) = false := by
      cases s with
      | nan => rfl
      | int n =>
        have hn : (0 : Int) ≤ n := hs
        simp only [JSNum.lt, decide_eq_false_iff_not]
        omega
    simp only [calcPointsAux, calcPointsNoNegAux, hslt, Bool.false_or]
    split_ifs <;> exact calcPointsAux_eq_noNeg rest _ hrest

/-- Claim C10: the negative-sector test of calcPoints is unreachable: the
hyphen is a separator of the split, so no token contains a minus sign, no
token value is a negative integer, and calcPoints agrees everywhere with
the variant whose sector test is only sector > 25. -/
theorem calcPoints_neg_guard_unreachable (hits : String) :
    calcPoints hits = calcPointsNoNegGuard hits := by
  unfold calcPoints calcPointsNoNegGuard
  apply calcPointsAux_eq_noNeg
  intro v hv
  unfold tokenValues at hv
  rcases List.mem_map.1 hv with ⟨t, ht, rfl⟩
  rcases hjs : jsNumber t with _ | n
  · simp [hjs, Option.elim, JSNum.nonnegOrNaN]
  · have hminus : ('-' : Char) ∉ t := by
      intro hm
      have hfalse := splitOn_pieces jsSep hits.toList t ht '-' hm
      simp [jsSep] at hfalse
    have hn := jsNumber_nonneg t hminus n hjs
    simp only [hjs, Option.elim]
    exact hn
